import Mathlib

/-!
Verification development for the eventure in-memory pub/sub core
(`src/sdk/src/in_memory/implementation.rs` and `src/sdk/src/in_memory.rs`).

The Rust code is shallowly embedded: the process-wide statics
`HANDLER_REGISTRY` and `BROKER_CONFIGURATION` become explicit state
passing, handlers are identified by their `id()` string, and an emit
call is modelled by the ordered list of handler ids whose `handle(event)`
is invoked.  Fallible Rust code (`Regex::new(..).unwrap()`) is modelled
with `Except`.
-/

set_option autoImplicit false

/-- Decidable equality on `Except`, so that concrete registration results
can be checked by evaluation. -/
instance instDecEqExcept {ε α : Type} [DecidableEq ε] [DecidableEq α] :
    DecidableEq (Except ε α)
  | Except.ok x, Except.ok y =>
      if h : x = y then Decidable.isTrue (by rw [h])
      else Decidable.isFalse (by simp [h])
  | Except.error x, Except.error y =>
      if h : x = y then Decidable.isTrue (by rw [h])
      else Decidable.isFalse (by simp [h])
  | Except.ok _, Except.error _ => Decidable.isFalse (fun h => Except.noConfusion h)
  | Except.error _, Except.ok _ => Decidable.isFalse (fun h => Except.noConfusion h)

namespace Eventure

/-! ### Model of the `regex` crate (restricted subset)

The library delegates channel-name matching to the third-party `regex`
crate.  We model the subset of its syntax the repository exercises:
literal characters, the any-character class `.` (which does not match a
newline), and the postfix repetition operator `*`.  `Regex::new` fails -
as the crate does - when `*` has no preceding expression; regex features
outside the modelled subset are rejected with a distinct error so that
no behaviour is invented for them.  `Regex::captures(s).is_some()` is an
unanchored search: the pattern may match any substring of `s`. -/

/-- Atom of the modelled regex subset: a literal character or `.`. -/
inductive Atom where
  | lit (c : Char)
  | dot
deriving DecidableEq, Repr

/-- One element of a compiled regex: an atom, possibly starred. -/
structure Elem where
  atom : Atom
  starred : Bool
deriving DecidableEq, Repr

/-- Characters of regex syntax outside the modelled subset. -/
def unsupportedMeta (c : Char) : Bool :=
  c == '(' || c == ')' || c == '[' || c == ']' || c == '\x7b' || c == '\x7d'
    || c == '|' || c == '+' || c == '?' || c == '\\' || c == '^' || c == '$'

/-- Atom denoted by a single non-meta pattern character. -/
def atomOf (c : Char) : Atom :=
  if c == '.' then Atom.dot else Atom.lit c

/-- Parses a pattern string into compiled elements.  Mirrors the `regex`
crate: a `*` with no preceding expression is a compile error. -/
def parseAtoms : List Char → Except String (List Elem)
  | [] => Except.ok []
  | '*' :: _ => Except.error "regex parse error: repetition operator missing expression"
  | c :: '*' :: rest =>
      if unsupportedMeta c then Except.error "regex feature outside modelled subset"
      else (parseAtoms rest).map (fun es => ⟨atomOf c, true⟩ :: es)
  | c :: rest =>
      if unsupportedMeta c then Except.error "regex feature outside modelled subset"
      else (parseAtoms rest).map (fun es => ⟨atomOf c, false⟩ :: es)

/-- Compiled regular expression (modelled subset of the `regex` crate). -/
structure Regex where
  elems : List Elem
deriving DecidableEq, Repr

/-- Model of `Regex::new`. -/
def Regex.new (s : String) : Except String Regex :=
  (parseAtoms s.data).map Regex.mk

/-- Whether an atom matches one character (`.` does not match newline). -/
def matchAtom : Atom → Char → Bool
  | Atom.lit d, c => c == d
  | Atom.dot, c => !(c == '\n')

/-- Repetition search for a starred atom: try the continuation (the rest
of the pattern) at the current position, else consume one more character
matched by the atom and repeat. -/
def starMatch (a : Atom) (k : List Char → Bool) : List Char → Bool
  | [] => k []
  | c :: cs => k (c :: cs) || (matchAtom a c && starMatch a k cs)

/-- Whether the element list matches some prefix of the character list
(matching is not anchored at the end, as for `captures`). -/
def matchHere : List Elem → List Char → Bool
  | [], _ => true
  | ⟨a, false⟩ :: es, s =>
      match s with
      | [] => false
      | c :: cs => matchAtom a c && matchHere es cs
  | ⟨a, true⟩ :: es, s => starMatch a (matchHere es) s

/-- Unanchored search: the elements match starting at some position. -/
def reSearch (es : List Elem) : List Char → Bool
  | [] => matchHere es []
  | c :: cs => matchHere es (c :: cs) || reSearch es cs

/-- Model of `regex.captures(s).is_some()`. -/
def Regex.capturesIsSome (r : Regex) (s : String) : Bool :=
  reSearch r.elems s.data

/-! ### Data model (`src/sdk/src/in_memory/implementation.rs`)

`Event` keeps the observable fields of the `model::Event` trait; the
payload is opaque to the dispatch core.  An event handler is identified
by its `id()` string, which is all the registry ever reads from it. -/

/-- Channel type (`ChannelType` in the source). -/
inductive ChannelType where
  | TOPIC
  | QUEUE
deriving DecidableEq, Repr

/-- In-memory message channel (`MessageChannel` in the source). -/
structure MessageChannel where
  channel_type : ChannelType
  name : String
deriving DecidableEq, Repr

/-- In-memory broker configuration (`MessageBrokerConfiguration`). -/
structure MessageBrokerConfiguration where
  message_channel : MessageChannel
  is_async : Bool

/-- Observable part of a `model::Event` trait object. -/
structure Event where
  id : String
  name : String
deriving DecidableEq, Repr

/-- Internal channel with the compiled pattern (`MessageChannelInternal`). -/
structure MessageChannelInternal where
  channel_type : ChannelType
  name_regex : Option Regex
deriving DecidableEq, Repr

/-- Embeds `MessageChannelInternal::new` (used for the initial statics). -/
def MessageChannelInternal.new : MessageChannelInternal :=
  { channel_type := ChannelType.TOPIC, name_regex := none }

/-- Embeds `MessageChannelInternal::from`.  The source calls
`Regex::new(message_channel.name).unwrap()`; the `unwrap` panic on an
invalid pattern is modelled as `Except.error`. -/
def MessageChannelInternal.ofChannel (message_channel : MessageChannel) :
    Except String MessageChannelInternal :=
  (Regex.new message_channel.name).map fun r =>
    { channel_type := message_channel.channel_type, name_regex := some r }

/-- Embeds `MessageChannelInternal::matches` from
`src/sdk/src/in_memory/implementation.rs` (lines 405-411): kind equality,
then unanchored regex search, with the extra symmetric clause accepting a
target channel literally named `"*"`. -/
def MessageChannelInternal.matches (self : MessageChannelInternal)
    (channel : MessageChannel) : Bool :=
  match self.name_regex with
  | some regex =>
      decide (self.channel_type = channel.channel_type)
        && (regex.capturesIsSome channel.name || channel.name == "*")
  | none => false

/-- Embeds `MessageChannelInternal::matches` from `src/sdk/src/in_memory.rs`
(lines 339-344): same as `matches` but without the `channel.name == "*"`
clause. -/
def MessageChannelInternal.matchesRoot (self : MessageChannelInternal)
    (channel : MessageChannel) : Bool :=
  match self.name_regex with
  | some regex =>
      decide (self.channel_type = channel.channel_type)
        && regex.capturesIsSome channel.name
  | none => false

/-- Internal broker configuration (`MessageBrokerConfigurationInternal`). -/
structure MessageBrokerConfigurationInternal where
  message_channel : MessageChannelInternal
  is_async : Bool
deriving DecidableEq, Repr

/-- Embeds `MessageBrokerConfigurationInternal::new`. -/
def MessageBrokerConfigurationInternal.new : MessageBrokerConfigurationInternal :=
  { message_channel := MessageChannelInternal.new, is_async := false }

/-- Embeds `MessageBrokerConfigurationInternal::from` (compiles the
default channel's pattern, so it can fail like `MessageChannelInternal::from`). -/
def MessageBrokerConfigurationInternal.ofConfiguration
    (configuration : MessageBrokerConfiguration) :
    Except String MessageBrokerConfigurationInternal :=
  (MessageChannelInternal.ofChannel configuration.message_channel).map fun ch =>
    { message_channel := ch, is_async := configuration.is_async }

/-- Embeds `MessageBrokerConfigurationInternal::update` (replaces both fields). -/
def MessageBrokerConfigurationInternal.update
    (_self configuration : MessageBrokerConfigurationInternal) :
    MessageBrokerConfigurationInternal :=
  { message_channel := configuration.message_channel,
    is_async := configuration.is_async }

/-- One registry entry (`HandlerConfiguration`): the handler is kept as
its `id()` string, the only part of it the registry inspects. -/
structure HandlerConfiguration where
  handlerId : String
  channel : MessageChannelInternal
deriving DecidableEq, Repr

/-- The handler registry (`EventHandlerRegistryImpl`). -/
structure EventHandlerRegistryImpl where
  handler_configs : List HandlerConfiguration
deriving DecidableEq, Repr

/-- Embeds `EventHandlerRegistryImpl::new`. -/
def EventHandlerRegistryImpl.new : EventHandlerRegistryImpl :=
  { handler_configs := [] }

/-- Embeds `EventHandlerRegistryImpl::register`: pushes the new
configuration at the end of the vector. -/
def EventHandlerRegistryImpl.register (self : EventHandlerRegistryImpl)
    (channel : MessageChannelInternal) (handlerId : String) :
    EventHandlerRegistryImpl :=
  { handler_configs := self.handler_configs ++ [⟨handlerId, channel⟩] }

/-- Embeds `EventHandlerRegistryImpl::unregister`: `position` of the first
configuration whose handler id equals the argument's id, then `remove`
at that index; nothing happens when no position is found. -/
def EventHandlerRegistryImpl.unregister (self : EventHandlerRegistryImpl)
    (handlerId : String) : EventHandlerRegistryImpl :=
  match self.handler_configs.findIdx? (fun config => config.handlerId == handlerId) with
  | some i => { handler_configs := self.handler_configs.eraseIdx i }
  | none => self

/-- Loop of `EventHandlerRegistryImpl::emit` for `Some(channel)`: scan the
configurations in order; on a match invoke the handler, and `break` right
after the invocation when the target channel is a `QUEUE`.  The returned
list is the ordered handler ids invoked with the event. -/
def emitChannelLoop : List HandlerConfiguration → MessageChannel → List String
  | [], _ => []
  | config :: rest, channel =>
      if config.channel.matches channel then
        if channel.channel_type = ChannelType.QUEUE then [config.handlerId]
        else config.handlerId :: emitChannelLoop rest channel
      else emitChannelLoop rest channel

/-- Loop of `EventHandlerRegistryImpl::emit` for `None`: invoke every
handler unconditionally, in order. -/
def emitAllLoop : List HandlerConfiguration → List String
  | [] => []
  | config :: rest => config.handlerId :: emitAllLoop rest

/-- Embeds `EventHandlerRegistryImpl::emit` (lines 457-483).  The result
is the ordered list of handler ids whose `handle(event)` is invoked; the
event itself does not influence the selection (it is only passed to the
handlers and logged). -/
def EventHandlerRegistryImpl.emit (self : EventHandlerRegistryImpl)
    (_event : Event) (channel_option : Option MessageChannel) : List String :=
  match channel_option with
  | some channel => emitChannelLoop self.handler_configs channel
  | none => emitAllLoop self.handler_configs

/-! ### Top-level API (`pub fn` layer over the two statics)

The process-wide statics `HANDLER_REGISTRY` and `BROKER_CONFIGURATION`
become one explicit `BrokerState`; each public function threads it. -/

/-- Combined state of the two statics. -/
structure BrokerState where
  handlerRegistry : EventHandlerRegistryImpl
  brokerConfiguration : MessageBrokerConfigurationInternal
deriving DecidableEq, Repr

/-- State of the statics at program start (their `const fn new()` values). -/
def initialBrokerState : BrokerState :=
  { handlerRegistry := EventHandlerRegistryImpl.new,
    brokerConfiguration := MessageBrokerConfigurationInternal.new }

namespace InMemory

/-- Embeds `pub fn setup`: compiles the configuration (which can fail on
an invalid default-channel pattern) and `update`s `BROKER_CONFIGURATION`. -/
def setup (st : BrokerState) (configuration : MessageBrokerConfiguration) :
    Except String BrokerState :=
  (MessageBrokerConfigurationInternal.ofConfiguration configuration).map fun c =>
    { st with brokerConfiguration := st.brokerConfiguration.update c }

/-- Embeds `pub fn register` (lines 178-182): compiles the channel pattern
via `MessageChannelInternal::from` - whose `unwrap` panic on an invalid
pattern is the error case, raised before anything is appended - then
appends the subscription to `HANDLER_REGISTRY`. -/
def register (st : BrokerState) (message_channel : MessageChannel)
    (handlerId : String) : Except String BrokerState :=
  (MessageChannelInternal.ofChannel message_channel).map fun ch =>
    { st with handlerRegistry := st.handlerRegistry.register ch handlerId }

/-- Embeds `pub fn unregister`. -/
def unregister (st : BrokerState) (handlerId : String) : BrokerState :=
  { st with handlerRegistry := st.handlerRegistry.unregister handlerId }

/-- Embeds `pub fn emit` (lines 300-302): dispatch with no channel.  The
state is unchanged (`emit` takes `&self`); the result is the invoked
handler ids. -/
def emit (st : BrokerState) (event : Event) : List String :=
  st.handlerRegistry.emit event none

/-- Embeds `pub fn emit_to_channel` (lines 342-344). -/
def emit_to_channel (st : BrokerState) (event : Event)
    (channel : MessageChannel) : List String :=
  st.handlerRegistry.emit event (some channel)

end InMemory

/-! ### Panicking handlers (for the isolation claim)

`config.handler.handle(event)` is an arbitrary user call that may panic.
Rust has no `catch_unwind` in this loop, so a panic unwinds out of
`emit` immediately after the failing invocation: no later configuration
is visited.  `panics h e` says whether handler `h` panics on event `e`;
the result pairs the ordered invoked handler ids with a flag telling
whether a panic escaped the loop. -/

/-- The `Some(channel)` emit loop with possibly-panicking handler bodies. -/
def emitUnwindChannelLoop : List HandlerConfiguration → MessageChannel →
    Event → (String → Event → Bool) → List String × Bool
  | [], _, _, _ => ([], false)
  | config :: rest, channel, event, panics =>
      if config.channel.matches channel then
        if panics config.handlerId event then ([config.handlerId], true)
        else if channel.channel_type = ChannelType.QUEUE then
          ([config.handlerId], false)
        else
          let r := emitUnwindChannelLoop rest channel event panics
          (config.handlerId :: r.fst, r.snd)
      else emitUnwindChannelLoop rest channel event panics

/-- The `None` emit loop with possibly-panicking handler bodies. -/
def emitUnwindAllLoop : List HandlerConfiguration → Event →
    (String → Event → Bool) → List String × Bool
  | [], _, _ => ([], false)
  | config :: rest, event, panics =>
      if panics config.handlerId event then ([config.handlerId], true)
      else
        let r := emitUnwindAllLoop rest event panics
        (config.handlerId :: r.fst, r.snd)

/-- `EventHandlerRegistryImpl::emit` when handler bodies may panic. -/
def EventHandlerRegistryImpl.emitUnwind (self : EventHandlerRegistryImpl)
    (event : Event) (channel_option : Option MessageChannel)
    (panics : String → Event → Bool) : List String × Bool :=
  match channel_option with
  | some channel => emitUnwindChannelLoop self.handler_configs channel event panics
  | none => emitUnwindAllLoop self.handler_configs event panics

/-- Specification-side helper: keep the handlers of a planned invocation
sequence up to and including the first panicking one, with the flag
telling whether a panic occurred. -/
def takeUntilPanic (event : Event) (panics : String → Event → Bool) :
    List String → List String × Bool
  | [] => ([], false)
  | h :: hs =>
      if panics h event then ([h], true)
      else
        let r := takeUntilPanic event panics hs
        (h :: r.fst, r.snd)

/-! ### Lock trace of a top-level emit call

`pub fn emit` / `emit_to_channel` evaluate
`HANDLER_REGISTRY.lock().unwrap().emit(..)`: the mutex guard is acquired
first and dropped at the end of the statement, so the whole registry
`emit` - handler invocations included - runs between the acquire and the
release.  The call is modelled as the sequence of lock and invocation
actions it performs. -/

/-- Observable actions of a top-level emit call. -/
inductive Action where
  | lockAcquire
  | invoke (handlerId : String)
  | lockRelease
deriving DecidableEq, Repr

/-- Action trace of `pub fn emit` / `pub fn emit_to_channel`: acquire the
`HANDLER_REGISTRY` lock, run the registry `emit` (each invoked handler is
an `invoke` action), drop the guard. -/
def emitTrace (st : BrokerState) (event : Event)
    (channel_option : Option MessageChannel) : List Action :=
  Action.lockAcquire ::
    ((st.handlerRegistry.emit event channel_option).map Action.invoke
      ++ [Action.lockRelease])

/-- Handlers invoked at a moment when the lock is held, given the number
of locks currently held at the start of the trace. -/
def invokedWhileHeld : Nat → List Action → List String
  | _, [] => []
  | k, Action.lockAcquire :: tr => invokedWhileHeld (k + 1) tr
  | k, Action.lockRelease :: tr => invokedWhileHeld (k - 1) tr
  | k, Action.invoke h :: tr =>
      if 0 < k then h :: invokedWhileHeld k tr else invokedWhileHeld k tr

/-! ### Fixtures for concrete witnesses and counterexamples -/

/-- Test fixture: the compiled channel for a pattern known to be valid
(`none` if it is not, which no fixture uses). -/
def fixtureChannel (k : ChannelType) (s : String) : MessageChannelInternal :=
  match MessageChannelInternal.ofChannel ⟨k, s⟩ with
  | Except.ok c => c
  | Except.error _ => ⟨k, none⟩

/-- Test fixture event. -/
def fixtureEvent : Event :=
  { id := "evt-1", name := "OrderCreated" }

/-- Test fixture: registry with `H1` then `H2`, both subscribed on the
pattern `"Orders"` with kind `QUEUE`. -/
def queueReg : EventHandlerRegistryImpl :=
  ⟨[⟨"H1", fixtureChannel ChannelType.QUEUE "Orders"⟩,
    ⟨"H2", fixtureChannel ChannelType.QUEUE "Orders"⟩]⟩

/-- Test fixture: registry with one handler subscribed on
`{TOPIC, "Orders"}`. -/
def topicOrdersReg : EventHandlerRegistryImpl :=
  ⟨[⟨"H", fixtureChannel ChannelType.TOPIC "Orders"⟩]⟩

/-- Test fixture: registry with `H1` then `H2`, both subscribed on the
match-all pattern `".*"` with kind `TOPIC`. -/
def topicAllReg : EventHandlerRegistryImpl :=
  ⟨[⟨"H1", fixtureChannel ChannelType.TOPIC ".*"⟩,
    ⟨"H2", fixtureChannel ChannelType.TOPIC ".*"⟩]⟩

/-- Test fixture: registry holding two distinct subscriptions that share
the handler id `"H"` (the code does not enforce id uniqueness). -/
def dupIdReg : EventHandlerRegistryImpl :=
  ⟨[⟨"H", fixtureChannel ChannelType.TOPIC "Orders"⟩,
    ⟨"H", fixtureChannel ChannelType.TOPIC "Orders"⟩]⟩

/-- Test fixture: broker state with one registered handler. -/
def st1 : BrokerState :=
  { handlerRegistry := ⟨[⟨"H1", fixtureChannel ChannelType.TOPIC ".*"⟩]⟩,
    brokerConfiguration := MessageBrokerConfigurationInternal.new }

/-- Test fixture: a valid broker configuration. -/
def cfgFixture : MessageBrokerConfiguration :=
  { message_channel := ⟨ChannelType.QUEUE, ".*"⟩, is_async := true }

/-- Test fixture: `st1` after `setup cfgFixture`. -/
def st1AfterSetup : BrokerState :=
  { handlerRegistry := st1.handlerRegistry,
    brokerConfiguration :=
      ⟨⟨ChannelType.QUEUE, some ⟨[⟨Atom.dot, true⟩]⟩⟩, true⟩ }

/-- Test fixture: `H1` panics on every event, nobody else does. -/
def panicsH1 : String → Event → Bool :=
  fun h _ => h == "H1"

/-! ### Helper lemmas -/

/-- The no-channel loop invokes exactly the registered handlers in order. -/
theorem emitAllLoop_eq_map (l : List HandlerConfiguration) :
    emitAllLoop l = l.map (fun c => c.handlerId) := by
  induction l with
  | nil => rfl
  | cons c cs ih => simp [emitAllLoop, ih]

/-- On a TOPIC target the channel loop invokes every matching handler. -/
theorem emitChannelLoop_topic (l : List HandlerConfiguration) (ch : MessageChannel)
    (h : ch.channel_type = ChannelType.TOPIC) :
    emitChannelLoop l ch
      = (l.filter (fun c => c.channel.matches ch)).map (fun c => c.handlerId) := by
  induction l with
  | nil => rfl
  | cons c cs ih =>
    by_cases hm : c.channel.matches ch
    · have hq : ¬ ch.channel_type = ChannelType.QUEUE := by simp [h]
      simp [emitChannelLoop, hm, hq, List.filter_cons, ih]
    · simp [emitChannelLoop, hm, List.filter_cons, ih]

/-- On a QUEUE target the channel loop invokes at most the first matching
handler. -/
theorem emitChannelLoop_queue (l : List HandlerConfiguration) (ch : MessageChannel)
    (h : ch.channel_type = ChannelType.QUEUE) :
    emitChannelLoop l ch
      = ((l.find? (fun c => c.channel.matches ch)).map (fun c => c.handlerId)).toList := by
  induction l with
  | nil => rfl
  | cons c cs ih =>
    by_cases hm : c.channel.matches ch
    · simp [emitChannelLoop, hm, h, List.find?_cons_of_pos]
    · simp [emitChannelLoop, hm, List.find?_cons_of_neg, ih]

/-- Any handler invoked by the channel loop comes from a registered,
matching configuration. -/
theorem mem_emitChannelLoop {l : List HandlerConfiguration} {ch : MessageChannel}
    {h : String} (hmem : h ∈ emitChannelLoop l ch) :
    ∃ c ∈ l, c.handlerId = h ∧ c.channel.matches ch = true := by
  induction l with
  | nil => simp [emitChannelLoop] at hmem
  | cons c cs ih =>
    by_cases hm : c.channel.matches ch
    · by_cases hq : ch.channel_type = ChannelType.QUEUE
      · simp [emitChannelLoop, hm, hq] at hmem
        exact ⟨c, by simp, by simp [hmem, hm]⟩
      · simp [emitChannelLoop, hm, hq] at hmem
        rcases hmem with hmem | hmem
        · exact ⟨c, by simp, by simp [hmem, hm]⟩
        · rcases ih hmem with ⟨c', hc', hid, hmt⟩
          exact ⟨c', by simp [hc'], hid, hmt⟩
    · simp only [emitChannelLoop, hm, if_neg, Bool.false_eq_true, ite_false] at hmem
      rcases ih hmem with ⟨c', hc', hid, hmt⟩
      exact ⟨c', by simp [hc'], hid, hmt⟩

/-- Any handler invoked by an emit call comes from a registered
configuration. -/
theorem mem_emit {r : EventHandlerRegistryImpl} {e : Event}
    {ch : Option MessageChannel} {h : String} (hmem : h ∈ r.emit e ch) :
    ∃ c ∈ r.handler_configs, c.handlerId = h := by
  cases ch with
  | some c =>
    rcases mem_emitChannelLoop hmem with ⟨c', hc', hid, _⟩
    exact ⟨c', hc', hid⟩
  | none =>
    have := hmem
    rw [show r.emit e none = emitAllLoop r.handler_configs from rfl,
      emitAllLoop_eq_map] at this
    simp only [List.mem_map] at this
    rcases this with ⟨c', hc', hid⟩
    exact ⟨c', hc', hid⟩

/-- The unwinding no-channel loop is the normal invocation sequence cut at
the first panicking handler. -/
theorem emitUnwindAllLoop_eq (l : List HandlerConfiguration) (e : Event)
    (p : String → Event → Bool) :
    emitUnwindAllLoop l e p = takeUntilPanic e p (emitAllLoop l) := by
  induction l with
  | nil => rfl
  | cons c cs ih =>
    by_cases hp : p c.handlerId e <;>
      simp [emitUnwindAllLoop, emitAllLoop, takeUntilPanic, hp, ih]

/-- The unwinding channel loop is the normal invocation sequence cut at
the first panicking handler. -/
theorem emitUnwindChannelLoop_eq (l : List HandlerConfiguration)
    (ch : MessageChannel) (e : Event) (p : String → Event → Bool) :
    emitUnwindChannelLoop l ch e p = takeUntilPanic e p (emitChannelLoop l ch) := by
  induction l with
  | nil => rfl
  | cons c cs ih =>
    by_cases hm : c.channel.matches ch
    · by_cases hp : p c.handlerId e
      · by_cases hq : ch.channel_type = ChannelType.QUEUE <;>
          simp [emitUnwindChannelLoop, emitChannelLoop, takeUntilPanic, hm, hp, hq]
      · by_cases hq : ch.channel_type = ChannelType.QUEUE
        · simp [emitUnwindChannelLoop, emitChannelLoop, takeUntilPanic, hm, hp, hq]
        · simp [emitUnwindChannelLoop, emitChannelLoop, takeUntilPanic, hm, hp, hq, ih]
    · simp [emitUnwindChannelLoop, emitChannelLoop, hm, ih]

/-- With the lock already held, an invocation block followed by the final
release reports every invocation as made under the lock. -/
theorem invokedWhileHeld_map_invoke (l : List String) (k : Nat) (hk : 0 < k) :
    invokedWhileHeld k (l.map Action.invoke ++ [Action.lockRelease]) = l := by
  induction l with
  | nil => simp [invokedWhileHeld]
  | cons h t ih => simp [invokedWhileHeld, hk, ih]

/-- Specification-side helper: drop the first configuration carrying the
given handler id, keep everything else in place. -/
def removeFirst (handlerId : String) :
    List HandlerConfiguration → List HandlerConfiguration
  | [] => []
  | c :: cs => if c.handlerId == handlerId then cs else c :: removeFirst handlerId cs

/-- The `position`-then-`remove` implementation of `unregister` computes
`removeFirst`. -/
theorem unregister_eq_removeFirst (l : List HandlerConfiguration) (handlerId : String) :
    EventHandlerRegistryImpl.unregister ⟨l⟩ handlerId = ⟨removeFirst handlerId l⟩ := by
  induction l with
  | nil => simp [EventHandlerRegistryImpl.unregister, removeFirst]
  | cons c cs ih =>
    by_cases hc : (c.handlerId == handlerId) = true
    · simp [EventHandlerRegistryImpl.unregister, removeFirst, List.findIdx?_cons, hc]
    · have hstep : List.findIdx? (fun config => config.handlerId == handlerId) (c :: cs)
          = (List.findIdx? (fun config => config.handlerId == handlerId) cs).map (· + 1) := by
        rw [List.findIdx?_cons]
        simp [hc, List.findIdx?_succ]
      cases hfi : List.findIdx? (fun config => config.handlerId == handlerId) cs with
      | none =>
        have hcs : removeFirst handlerId cs = cs := by
          have h := ih
          simp [EventHandlerRegistryImpl.unregister, hfi] at h
          exact h.symm
        simp [EventHandlerRegistryImpl.unregister, hstep, hfi, removeFirst, hc, hcs]
      | some i =>
        have hcs : cs.eraseIdx i = removeFirst handlerId cs := by
          have h := ih
          simp [EventHandlerRegistryImpl.unregister, hfi] at h
          exact h
        simp [EventHandlerRegistryImpl.unregister, hstep, hfi, removeFirst, hc, hcs]

/-- `removeFirst` does nothing when no configuration carries the id. -/
theorem removeFirst_of_not_mem (l : List HandlerConfiguration) (handlerId : String)
    (h : ∀ x ∈ l, x.handlerId ≠ handlerId) : removeFirst handlerId l = l := by
  induction l with
  | nil => rfl
  | cons c cs ih =>
    have hc : ¬ (c.handlerId == handlerId) = true := by
      simp only [beq_iff_eq]
      exact h c (by simp)
    simp [removeFirst, hc, ih (fun x hx => h x (by simp [hx]))]

/-- `removeFirst` removes exactly the first occurrence of the id. -/
theorem removeFirst_append (l1 l2 : List HandlerConfiguration)
    (c : HandlerConfiguration) (handlerId : String)
    (h1 : ∀ x ∈ l1, x.handlerId ≠ handlerId) (hc : c.handlerId = handlerId) :
    removeFirst handlerId (l1 ++ c :: l2) = l1 ++ l2 := by
  induction l1 with
  | nil => simp [removeFirst, hc]
  | cons x xs ih =>
    have hx : ¬ (x.handlerId == handlerId) = true := by
      simp only [beq_iff_eq]
      exact h1 x (by simp)
    simp [removeFirst, hx, ih (fun y hy => h1 y (by simp [hy]))]

/-- The search `".*"` succeeds on every character list. -/
theorem reSearch_dot_star (l : List Char) : reSearch [⟨Atom.dot, true⟩] l = true := by
  cases l with
  | nil => rfl
  | cons c cs => simp [reSearch, matchHere, starMatch]

/-! ### Claim theorems -/

/-- C1: `emit(e, c)` scans subscriptions in registration order; on a TOPIC
target every subscription whose pattern matches the channel has its
handler invoked (the filtered list, in order), and on a QUEUE target the
scan stops right after the first matching handler, so at most the
earliest-registered matching handler is invoked. -/
theorem emit_channel_delivery_semantics (r : EventHandlerRegistryImpl)
    (e : Event) (ch : MessageChannel) :
    (ch.channel_type = ChannelType.TOPIC →
      r.emit e (some ch)
        = (r.handler_configs.filter (fun c => c.channel.matches ch)).map
            (fun c => c.handlerId)) ∧
    (ch.channel_type = ChannelType.QUEUE →
      r.emit e (some ch)
        = ((r.handler_configs.find? (fun c => c.channel.matches ch)).map
            (fun c => c.handlerId)).toList) := by
  constructor
  · intro h
    exact emitChannelLoop_topic r.handler_configs ch h
  · intro h
    exact emitChannelLoop_queue r.handler_configs ch h

/-- Witness for C1 at a concrete input: with `H1` then `H2` both
registered on `{QUEUE, "Orders"}`, a single `emit` to `{QUEUE, "Orders"}`
invokes `H1` only. -/
theorem emit_channel_delivery_semantics_witness :
    EventHandlerRegistryImpl.emit queueReg fixtureEvent
      (some ⟨ChannelType.QUEUE, "Orders"⟩) = ["H1"] := by
  have h := (emit_channel_delivery_semantics queueReg fixtureEvent
    ⟨ChannelType.QUEUE, "Orders"⟩).2 rfl
  rw [h]
  decide

/-- C2: `emit(e)` with no channel invokes every currently-registered
handler exactly once, in registration order, independently of the
subscriptions' patterns (the result is exactly the handler-id column of
the registry). -/
theorem emit_no_channel_broadcasts_to_all (r : EventHandlerRegistryImpl)
    (e : Event) :
    r.emit e none = r.handler_configs.map (fun c => c.handlerId) :=
  emitAllLoop_eq_map r.handler_configs

/-- C3: a pattern whose kind differs from the target channel's kind never
matches, whatever the names; consequently an emit to a channel whose kind
differs from every registered subscription's kind invokes nobody. -/
theorem kind_mismatch_blocks_match (c : MessageChannelInternal)
    (t : MessageChannel) (r : EventHandlerRegistryImpl) (e : Event) :
    (c.channel_type ≠ t.channel_type → c.matches t = false) ∧
    ((∀ cfg ∈ r.handler_configs, cfg.channel.channel_type ≠ t.channel_type) →
      r.emit e (some t) = []) := by
  have hone : ∀ c' : MessageChannelInternal, c'.channel_type ≠ t.channel_type →
      c'.matches t = false := by
    intro c' hne
    cases hreg : c'.name_regex with
    | none => simp [MessageChannelInternal.matches, hreg]
    | some reg => simp [MessageChannelInternal.matches, hreg, hne]
  refine ⟨hone c, ?_⟩
  intro hall
  have hloop : ∀ l : List HandlerConfiguration,
      (∀ cfg ∈ l, cfg.channel.channel_type ≠ t.channel_type) →
      emitChannelLoop l t = [] := by
    intro l
    induction l with
    | nil => intro _; rfl
    | cons x xs ih =>
      intro hl
      have hx : x.channel.matches t = false := hone x.channel (hl x (by simp))
      simp [emitChannelLoop, hx, ih (fun y hy => hl y (by simp [hy]))]
  exact hloop r.handler_configs hall

/-- Witness for C3 at a concrete input: `H` registered on
`{TOPIC, "Orders"}` is not invoked by an emit to `{QUEUE, "Orders"}`. -/
theorem kind_mismatch_blocks_match_witness :
    EventHandlerRegistryImpl.emit topicOrdersReg fixtureEvent
      (some ⟨ChannelType.QUEUE, "Orders"⟩) = [] :=
  (kind_mismatch_blocks_match (fixtureChannel ChannelType.TOPIC "Orders")
    ⟨ChannelType.QUEUE, "Orders"⟩ topicOrdersReg fixtureEvent).2 (by decide)

/-- C4 counterexample: a subscription with pattern name `"*"` cannot be
created - `Regex::new("*")` fails ("repetition operator missing
expression"), so `register` fails instead of succeeding as the claim
states. -/
theorem star_pattern_register_fails :
    InMemory.register initialBrokerState ⟨ChannelType.TOPIC, "*"⟩ "H1"
      = Except.error "regex parse error: repetition operator missing expression" := by
  rfl

/-- C4 amended: the literal pattern name `"*"` is rejected at
registration for every kind and every state; the accepted match-all
pattern token is `".*"`, which matches every channel name of its kind;
separately, a target channel literally named `"*"` matches any compiled
pattern of the same kind. -/
theorem match_all_token_is_dot_star (k : ChannelType) (n : String)
    (st : BrokerState) (hid : String) :
    (∃ e, InMemory.register st ⟨k, "*"⟩ hid = Except.error e) ∧
    (Regex.new ".*").map
        (fun r => MessageChannelInternal.matches ⟨k, some r⟩ ⟨k, n⟩)
      = Except.ok true ∧
    (∀ r : Regex, MessageChannelInternal.matches ⟨k, some r⟩ ⟨k, "*"⟩ = true) := by
  refine ⟨⟨"regex parse error: repetition operator missing expression", rfl⟩, ?_, ?_⟩
  · have hre : Regex.new ".*" = Except.ok ⟨[⟨Atom.dot, true⟩]⟩ := rfl
    rw [hre]
    simp [Except.map, MessageChannelInternal.matches, Regex.capturesIsSome,
      reSearch_dot_star]
  · intro r
    simp [MessageChannelInternal.matches]

/-- C5 counterexample: handler ids are not forced to be unique, and with
two subscriptions sharing id `"H"` a second `unregister("H")` after a
successful removal is not a no-op (it removes the other subscription),
and an emit after the first `unregister("H")` still invokes `"H"` -
contradicting the claim's for-every-registry-state guarantees. -/
theorem unregister_twice_with_duplicate_ids_not_noop :
    EventHandlerRegistryImpl.unregister
        (EventHandlerRegistryImpl.unregister dupIdReg "H") "H"
      ≠ EventHandlerRegistryImpl.unregister dupIdReg "H" ∧
    "H" ∈ EventHandlerRegistryImpl.emit
        (EventHandlerRegistryImpl.unregister dupIdReg "H") fixtureEvent
        (some ⟨ChannelType.TOPIC, "Orders"⟩) := by
  decide

/-- C5 amended: `unregister(h)` removes exactly the first subscription
whose handler id is `h` and keeps the rest in order; it is a no-op when
no subscription has id `h`; and provided no OTHER subscription shares id
`h` (the data model requires ids to be unique), a second `unregister(h)`
is a no-op and a subsequent emit never invokes `h` again. -/
theorem unregister_removes_first_occurrence (l1 l2 : List HandlerConfiguration)
    (c : HandlerConfiguration) (hid : String) (r : EventHandlerRegistryImpl)
    (e : Event) (ch : Option MessageChannel) :
    ((∀ x ∈ r.handler_configs, x.handlerId ≠ hid) → r.unregister hid = r) ∧
    ((∀ x ∈ l1, x.handlerId ≠ hid) → c.handlerId = hid →
      EventHandlerRegistryImpl.unregister ⟨l1 ++ c :: l2⟩ hid = ⟨l1 ++ l2⟩) ∧
    ((∀ x ∈ l1 ++ l2, x.handlerId ≠ hid) → c.handlerId = hid →
      EventHandlerRegistryImpl.unregister
          (EventHandlerRegistryImpl.unregister ⟨l1 ++ c :: l2⟩ hid) hid
        = EventHandlerRegistryImpl.unregister ⟨l1 ++ c :: l2⟩ hid ∧
      hid ∉ (EventHandlerRegistryImpl.unregister ⟨l1 ++ c :: l2⟩ hid).emit e ch) := by
  have hnoop : ∀ r' : EventHandlerRegistryImpl,
      (∀ x ∈ r'.handler_configs, x.handlerId ≠ hid) → r'.unregister hid = r' := by
    intro r' hr'
    have h := unregister_eq_removeFirst r'.handler_configs hid
    rw [removeFirst_of_not_mem r'.handler_configs hid hr'] at h
    exact h
  have hremove : (∀ x ∈ l1, x.handlerId ≠ hid) → c.handlerId = hid →
      EventHandlerRegistryImpl.unregister ⟨l1 ++ c :: l2⟩ hid = ⟨l1 ++ l2⟩ := by
    intro h1 hc
    rw [unregister_eq_removeFirst, removeFirst_append l1 l2 c hid h1 hc]
  refine ⟨hnoop r, hremove, ?_⟩
  intro h12 hc
  have h1 : ∀ x ∈ l1, x.handlerId ≠ hid := fun x hx => h12 x (by simp [hx])
  rw [hremove h1 hc]
  constructor
  · exact hnoop ⟨l1 ++ l2⟩ h12
  · intro hmem
    rcases mem_emit hmem with ⟨c', hc', hid'⟩
    exact h12 c' hc' hid'

/-- Witness for the amended C5 at a concrete input: removing `"H1"` from
a two-handler registry with distinct ids keeps `"H2"` only, a second
removal changes nothing, and a subsequent emit does not invoke `"H1"`. -/
theorem unregister_removes_first_occurrence_witness :
    EventHandlerRegistryImpl.unregister topicAllReg "H1"
      = ⟨[⟨"H2", fixtureChannel ChannelType.TOPIC ".*"⟩]⟩ ∧
    EventHandlerRegistryImpl.unregister
        (EventHandlerRegistryImpl.unregister topicAllReg "H1") "H1"
      = EventHandlerRegistryImpl.unregister topicAllReg "H1" ∧
    "H1" ∉ (EventHandlerRegistryImpl.unregister topicAllReg "H1").emit
        fixtureEvent (some ⟨ChannelType.TOPIC, "Orders"⟩) := by
  have h := unregister_removes_first_occurrence []
    [⟨"H2", fixtureChannel ChannelType.TOPIC ".*"⟩]
    ⟨"H1", fixtureChannel ChannelType.TOPIC ".*"⟩ "H1" topicAllReg
    fixtureEvent (some ⟨ChannelType.TOPIC, "Orders"⟩)
  have hreg : topicAllReg = ⟨[] ++ ⟨"H1", fixtureChannel ChannelType.TOPIC ".*"⟩ ::
      [⟨"H2", fixtureChannel ChannelType.TOPIC ".*"⟩]⟩ := rfl
  rw [hreg]
  refine ⟨?_, ?_, ?_⟩
  · exact h.2.1 (by decide) rfl
  · exact (h.2.2 (by decide) rfl).1
  · exact (h.2.2 (by decide) rfl).2

/-- C6: an invalid channel-pattern name makes `register` (and `setup`)
fail synchronously with the compilation error, before any subscription is
appended, so a failed call leaves the registry unchanged; a valid pattern
is compiled once and the compiled value is what the new subscription
stores, so matching at emit time works on the compiled pattern and never
re-parses the name. -/
theorem register_compiles_pattern_synchronously (st : BrokerState)
    (k : ChannelType) (s : String) (hid : String) :
    (∀ e, Regex.new s = Except.error e →
      InMemory.register st ⟨k, s⟩ hid = Except.error e) ∧
    (∀ e b, Regex.new s = Except.error e →
      InMemory.setup st ⟨⟨k, s⟩, b⟩ = Except.error e) ∧
    (∀ r, Regex.new s = Except.ok r →
      InMemory.register st ⟨k, s⟩ hid = Except.ok
        { st with handlerRegistry :=
            ⟨st.handlerRegistry.handler_configs ++ [⟨hid, ⟨k, some r⟩⟩]⟩ }) := by
  refine ⟨?_, ?_, ?_⟩
  · intro e he
    simp [InMemory.register, MessageChannelInternal.ofChannel, he, Except.map]
  · intro e b he
    simp [InMemory.setup, MessageBrokerConfigurationInternal.ofConfiguration,
      MessageChannelInternal.ofChannel, he, Except.map]
  · intro r hr
    simp [InMemory.register, MessageChannelInternal.ofChannel, hr, Except.map,
      EventHandlerRegistryImpl.register]

/-- Witness for C6 at concrete inputs: registering the invalid pattern
`"*"` fails with the compilation error and appends nothing, while
registering the valid pattern `".*"` appends one subscription holding the
compiled regex. -/
theorem register_compiles_pattern_synchronously_witness :
    InMemory.register initialBrokerState ⟨ChannelType.TOPIC, "*"⟩ "H1"
      = Except.error "regex parse error: repetition operator missing expression" ∧
    InMemory.register initialBrokerState ⟨ChannelType.TOPIC, ".*"⟩ "H1"
      = Except.ok { initialBrokerState with handlerRegistry :=
          ⟨[⟨"H1", ⟨ChannelType.TOPIC, some ⟨[⟨Atom.dot, true⟩]⟩⟩⟩]⟩ } := by
  constructor
  · exact (register_compiles_pattern_synchronously initialBrokerState
      ChannelType.TOPIC "*" "H1").1 _ rfl
  · have h := (register_compiles_pattern_synchronously initialBrokerState
      ChannelType.TOPIC ".*" "H1").2.2 ⟨[⟨Atom.dot, true⟩]⟩ rfl
    rw [h]
    rfl

/-- C7 counterexample: with `H1` then `H2` both registered on the
match-all TOPIC pattern, a normal emit invokes both, but when `H1` panics
the loop - which has no per-handler isolation - unwinds immediately:
`H2`, though matching, is never invoked and the panic escapes. -/
theorem panic_in_handler_aborts_delivery :
    EventHandlerRegistryImpl.emit topicAllReg fixtureEvent
        (some ⟨ChannelType.TOPIC, "Orders"⟩) = ["H1", "H2"] ∧
    EventHandlerRegistryImpl.emitUnwind topicAllReg fixtureEvent
        (some ⟨ChannelType.TOPIC, "Orders"⟩) panicsH1 = (["H1"], true) := by
  decide

/-- C7 amended: handler invocations are NOT isolated - for every registry,
event, optional channel and panic behaviour, the emit loop invokes the
planned handlers only up to and including the first panicking one, the
panic propagates out of `emit` (flag `true`), and the remaining matching
handlers are skipped. -/
theorem emit_panic_cuts_invocation_sequence (r : EventHandlerRegistryImpl)
    (e : Event) (ch : Option MessageChannel) (panics : String → Event → Bool) :
    r.emitUnwind e ch panics = takeUntilPanic e panics (r.emit e ch) := by
  cases ch with
  | none => exact emitUnwindAllLoop_eq r.handler_configs e panics
  | some c => exact emitUnwindChannelLoop_eq r.handler_configs c e panics

/-- C8 counterexample: in the concrete one-handler state, the trace of
`pub fn emit` performs the `H1` invocation between the lock acquire and
the release - the handler runs while the registry lock is held, whereas
the claim requires the while-held invocation list to be empty. -/
theorem handler_invoked_while_lock_held :
    invokedWhileHeld 0 (emitTrace st1 fixtureEvent none) = ["H1"] ∧
    invokedWhileHeld 0 (emitTrace st1 fixtureEvent none) ≠ [] := by
  decide

/-- C8 amended: the dispatcher takes no snapshot and never releases the
registry lock before invoking handlers - every handler invocation of a
top-level emit call happens while the lock is held (the while-held
invocation list is the whole invocation list), so a handler that
re-enters `register`/`unregister`/`emit` would deadlock. -/
theorem all_invocations_happen_under_lock (st : BrokerState) (e : Event)
    (ch : Option MessageChannel) :
    invokedWhileHeld 0 (emitTrace st e ch) = st.handlerRegistry.emit e ch := by
  show invokedWhileHeld 0 (Action.lockAcquire ::
    ((st.handlerRegistry.emit e ch).map Action.invoke ++ [Action.lockRelease]))
      = st.handlerRegistry.emit e ch
  rw [show invokedWhileHeld 0 (Action.lockAcquire ::
    ((st.handlerRegistry.emit e ch).map Action.invoke ++ [Action.lockRelease]))
      = invokedWhileHeld 1 ((st.handlerRegistry.emit e ch).map Action.invoke
        ++ [Action.lockRelease]) from rfl]
  exact invokedWhileHeld_map_invoke _ 1 (by omega)

/-- C9 counterexample: the two `MessageChannelInternal::matches`
implementations disagree - on the pattern compiled from
`{TOPIC, "Orders"}` and the target `{TOPIC, "*"}`, the
`in_memory/implementation.rs` variant returns `true` (symmetric
match-all target) while the `in_memory.rs` variant returns `false`. -/
theorem matches_variants_disagree :
    MessageChannelInternal.matches (fixtureChannel ChannelType.TOPIC "Orders")
      ⟨ChannelType.TOPIC, "*"⟩ = true ∧
    MessageChannelInternal.matchesRoot (fixtureChannel ChannelType.TOPIC "Orders")
      ⟨ChannelType.TOPIC, "*"⟩ = false := by
  decide

/-- C9 amended: the two implementations agree except exactly on targets
literally named `"*"` - `implementation.rs`'s `matches` is
`in_memory.rs`'s `matchesRoot` extended by the symmetric match-all-target
clause, which only the former satisfies. -/
theorem matches_variants_differ_only_on_star_target
    (c : MessageChannelInternal) (t : MessageChannel) :
    c.matches t
      = (c.matchesRoot t
          || (decide (c.channel_type = t.channel_type)
              && c.name_regex.isSome && t.name == "*")) := by
  cases hreg : c.name_regex with
  | none => simp [MessageChannelInternal.matches, MessageChannelInternal.matchesRoot, hreg]
  | some r =>
    simp only [MessageChannelInternal.matches, MessageChannelInternal.matchesRoot,
      hreg, Option.isSome_some, Bool.and_true]
    cases decide (c.channel_type = t.channel_type) <;>
      cases r.capturesIsSome t.name <;>
      cases t.name == "*" <;> rfl

/-- C10: `setup` only replaces the broker configuration - the registry
component is untouched, and since the dispatcher never reads
`BROKER_CONFIGURATION`, both `emit` and `emit_to_channel` invoke exactly
the same handlers in the same order before and after any successful
`setup`; an emit with no channel still broadcasts to every registered
handler instead of applying the configured default channel. -/
theorem setup_invisible_to_dispatch (st : BrokerState)
    (cfg : MessageBrokerConfiguration) (st' : BrokerState) (e : Event)
    (ch : Option MessageChannel) (h : InMemory.setup st cfg = Except.ok st') :
    st'.handlerRegistry = st.handlerRegistry ∧
    st'.handlerRegistry.emit e ch = st.handlerRegistry.emit e ch ∧
    InMemory.emit st' e = InMemory.emit st e ∧
    (∀ c, InMemory.emit_to_channel st' e c = InMemory.emit_to_channel st e c) ∧
    InMemory.emit st' e
      = st'.handlerRegistry.handler_configs.map (fun c => c.handlerId) := by
  cases hc : MessageBrokerConfigurationInternal.ofConfiguration cfg with
  | error err =>
    rw [InMemory.setup, hc] at h
    exact absurd h (by simp [Except.map])
  | ok c' =>
    rw [InMemory.setup, hc] at h
    simp only [Except.map, Except.ok.injEq] at h
    subst h
    refine ⟨rfl, rfl, rfl, fun _ => rfl, ?_⟩
    exact emitAllLoop_eq_map _

/-- Witness for C10 at a concrete input: a successful `setup` of a QUEUE
default channel on the one-handler state leaves the registry and the
no-channel emit result unchanged. -/
theorem setup_invisible_to_dispatch_witness :
    st1AfterSetup.handlerRegistry = st1.handlerRegistry ∧
    InMemory.emit st1AfterSetup fixtureEvent = InMemory.emit st1 fixtureEvent ∧
    InMemory.emit st1AfterSetup fixtureEvent = ["H1"] := by
  have h := setup_invisible_to_dispatch st1 cfgFixture st1AfterSetup
    fixtureEvent none (by decide)
  refine ⟨h.1, h.2.2.1, ?_⟩
  rw [h.2.2.2.2]
  decide

end Eventure
